import Mathlib

/-!
Formal model of the safie-mediafile segmented download pipeline.

Time instants and durations are modelled as plain integers counting
microseconds (the resolution of Python `datetime` / `timedelta`);
all time arithmetic in the source is exact integer arithmetic at this
resolution, so the embedding is faithful up to the choice of unit.
Instants play the role of `datetime` values and durations the role of
`timedelta` values.
-/

namespace SafieMediafile

/-- `_MIN_DURATION = timedelta(minutes=1)` from `_cli/_downloader.py`,
in microseconds. -/
def MIN_DURATION : Int := 60000000

/-- `_MAX_DURATION = timedelta(minutes=10)` from `_cli/_downloader.py`,
in microseconds. -/
def MAX_DURATION : Int := 600000000

/-- Model of `_create_time_segments(start_time, end_time, segment_duration)`
from `_cli/_downloader.py`: starting at `start_time`, repeatedly emit
`(current_start, min(current_start + segment_duration, end_time))` and
advance the cursor to the emitted end, while `current_start < end_time`.
The Python `while` loop does not terminate when `segment_duration ≤ 0`
and `start_time < end_time`, so the recursion is additionally guarded by
`0 < segment_duration`; the source only ever calls this with positive
durations. -/
def createTimeSegments (start_time end_time : Int) (segment_duration : Int) :
    List (Int × Int) :=
  if _hguard : start_time < end_time ∧ 0 < segment_duration then
    (start_time, min (start_time + segment_duration) end_time) ::
      createTimeSegments (min (start_time + segment_duration) end_time) end_time
        segment_duration
  else
    []
termination_by (end_time - start_time).toNat
decreasing_by
  obtain ⟨h1, h2⟩ := _hguard
  rcases le_or_lt (start_time + segment_duration) end_time with hc | hc
  · rw [min_eq_left hc]
    omega
  · rw [min_eq_right hc.le]
    omega

/-- Boolean check that consecutive segments are contiguous:
each segment's end equals the next segment's start. -/
def segmentsChained : List (Int × Int) → Bool
  | a :: b :: rest => (a.2 == b.1) && segmentsChained (b :: rest)
  | _ => true

/-- Boolean check that every segment except possibly the last has
duration exactly `d`. -/
def allFullButLast (d : Int) : List (Int × Int) → Bool
  | a :: b :: rest => (a.2 - a.1 == d) && allFullButLast d (b :: rest)
  | _ => true

/-- Boolean check that every segment is non-degenerate (`start < end`). -/
def segmentsProper (l : List (Int × Int)) : Bool :=
  l.all fun p => decide (p.1 < p.2)

/-- The remote state of a media-file export request, as read from the
`state` field of the status response in `wait_for_mediafile_ready`
(`_endpoints/_mediafile.py`): `AVAILABLE` carries the download `url`,
`FAILED` carries the upstream `error` detail, and anything else is
treated as still pending. -/
inductive MediaState where
  | available (url : String)
  | failed (error : String)
  | pending
deriving DecidableEq

/-- Terminal outcome of the readiness-polling loop. -/
inductive PollOutcome where
  | ok (url : String)
  | processingFailed (error : String)
  | timedOut (requestId : String)
deriving DecidableEq

/-- Observable effects of one run against the remote API, in program
order: each `queryStatus` is one `get_mediafile_status` call, each
`sleepInterval` is one `asyncio.sleep(interval)` suspension, and
`createReq` / `download` / `deleteReq` model the corresponding
`MediaFileAPI` calls. -/
inductive ApiCall where
  | createReq (deviceId : String) (startT endT : Int)
  | queryStatus (deviceId requestId : String)
  | sleepInterval
  | download (url : String)
  | deleteReq (deviceId requestId : String)
deriving DecidableEq

def isQueryCall : ApiCall → Bool
  | .queryStatus _ _ => true
  | _ => false

def isSleepCall : ApiCall → Bool
  | .sleepInterval => true
  | _ => false

def isDeleteCall : ApiCall → Bool
  | .deleteReq _ _ => true
  | _ => false

def isCreateCall : ApiCall → Bool
  | .createReq _ _ _ => true
  | _ => false

def countQueries (t : List ApiCall) : Nat := t.countP isQueryCall
def countSleeps (t : List ApiCall) : Nat := t.countP isSleepCall
def countDeletes (t : List ApiCall) : Nat := t.countP isDeleteCall
def countCreates (t : List ApiCall) : Nat := t.countP isCreateCall

/-- Model of the `for _ in range(max_retries)` loop body of
`wait_for_mediafile_ready` (`_endpoints/_mediafile.py`).  `status k` is
the remote state reported by the `k`-th status query (0-based; `q` is
the index of the next query to issue, `n` the remaining attempts).
Each iteration issues one query; on `AVAILABLE` it returns the URL
immediately, on `FAILED` it raises immediately, otherwise it sleeps for
the interval and retries; when the attempts are exhausted it raises the
timeout error carrying the request id. -/
def pollCalls (deviceId requestId : String) (status : Nat → MediaState) :
    Nat → Nat → List ApiCall × PollOutcome
  | 0, _ => ([], .timedOut requestId)
  | n + 1, q =>
    match status q with
    | .available url => ([.queryStatus deviceId requestId], .ok url)
    | .failed err => ([.queryStatus deviceId requestId], .processingFailed err)
    | .pending =>
      let r := pollCalls deviceId requestId status n (q + 1)
      (.queryStatus deviceId requestId :: .sleepInterval :: r.1, r.2)

/-- `max_retries: int = 10` default of `wait_for_mediafile_ready`. -/
def defaultMaxRetries : Nat := 10

/-- Model of `wait_for_mediafile_ready(device_id, request_id, max_retries,
interval)`: run the polling loop from the first query. -/
def waitForMediafileReady (deviceId requestId : String)
    (status : Nat → MediaState) (maxRetries : Nat) : List ApiCall × PollOutcome :=
  pollCalls deviceId requestId status maxRetries 0

/-- Python exception classes raised by the modelled code paths:
`SafieMediaFileError`, `SafieMediaFileTimeoutError` (carrying the
request id of the timed-out request) and `RuntimeError`. -/
inductive PyError where
  | mediaFileError (msg : String)
  | timeoutError (requestId : String)
  | runtimeError (msg : String)
deriving DecidableEq

/-- Result of running a modelled Python coroutine: normal return or a
propagated exception. -/
inductive PyResult where
  | ok
  | error (e : PyError)
deriving DecidableEq

/-- Behaviour of the remote service and transport for one export
request: the request id returned by `create_mediafile`, the state
reported by each successive status query, and whether the streamed
download completes without a transport error. -/
structure RemoteEnv where
  requestId : String
  status : Nat → MediaState
  downloadOk : Bool

/-- Model of `create_and_download_mediafile` (`safie_mediafile/__init__.py`):
create the export request, wait for readiness with the default retry
budget, then download; the `finally` block deletes the remote request
only when `download_success` was set, i.e. only after the download
completed successfully.  Returns the ordered API-call trace and the
outcome. -/
def createAndDownloadMediafile (deviceId : String) (startT endT : Int)
    (env : RemoteEnv) : List ApiCall × PyResult :=
  let poll := waitForMediafileReady deviceId env.requestId env.status defaultMaxRetries
  let tail : List ApiCall × PyResult :=
    match poll.2 with
    | .timedOut rid => (poll.1, .error (.timeoutError rid))
    | .processingFailed err =>
        (poll.1, .error (.mediaFileError ("Media file generation failed: " ++ err)))
    | .ok url =>
        if env.downloadOk then
          (poll.1 ++ [.download url, .deleteReq deviceId env.requestId], .ok)
        else
          (poll.1 ++ [.download url],
            .error (.mediaFileError "Failed to download media file"))
  (ApiCall.createReq deviceId startT endT :: tail.1, tail.2)

/-- Model of `_download_media` (`_cli/_downloader.py`): `open(output_path,
"wb")` creates the segment file, then `create_and_download_mediafile`
streams into it; on any exception the handler runs
`output_path.unlink(missing_ok=True)` and re-raises.  The `Bool`
component records whether the segment file exists at `output_path`
after the call. -/
def downloadMedia (deviceId : String) (startT endT : Int) (env : RemoteEnv) :
    List ApiCall × Bool × PyResult :=
  let fileOpened := true
  let r := createAndDownloadMediafile deviceId startT endT env
  match r.2 with
  | .ok => (r.1, fileOpened, .ok)
  | .error e => (r.1, false, .error e)

/-- Abstract content of a media file on disk. -/
inductive FileContent where
  | raw (startT endT : Int)
  | trimmed (orig : FileContent) (clipDuration : Int)
  | merged (parts : List FileContent)
  | truncatedFile

/-- Arguments of the ffmpeg trim invocation built in
`_download_with_clipping`: `-ss 0 -t clip_duration -c copy -y`
(`seekStart`, `clipDuration` in microseconds, stream copy, overwrite). -/
structure TrimCmd where
  seekStart : Int
  clipDuration : Int
  streamCopy : Bool
  overwrite : Bool
deriving DecidableEq

/-- Behaviour of the local environment for one `_download_with_clipping`
call: the remote behaviour plus whether the `ffmpeg` binary exists on
PATH, whether the trim invocation exits with status 0, and whether a
failed trim leaves a partially-written temporary file behind. -/
structure ClipEnv where
  remote : RemoteEnv
  ffmpegFound : Bool
  trimExitZero : Bool
  trimLeavesTempOnFail : Bool

/-- Final observable state of one `_download_with_clipping` call:
the API-call trace, the arguments of the ffmpeg trim invocation (when
one was issued), the file at the segment output path, the file at the
temporary `.temp.mp4` path, and the outcome. -/
structure ClipResult where
  apiCalls : List ApiCall
  trimCmd : Option TrimCmd
  outputFile : Option FileContent
  tempFile : Option FileContent
  result : PyResult

/-- Model of `_download_with_clipping` (`_cli/_downloader.py`).  When the
requested duration is below `_MIN_DURATION` the export is requested for
`[start_time, start_time + _MIN_DURATION)` and the download is then
trimmed with `ffmpeg -i out -ss 0 -t clip_duration -c copy -y temp`
where `clip_duration = (original_end_time - start_time).total_seconds()`
(kept in microseconds here); on success `shutil.move` replaces the raw
download with the trimmed file, and the `finally` block removes the
temporary file whenever it still exists. -/
def downloadWithClipping (deviceId : String) (start_time end_time : Int)
    (env : ClipEnv) : ClipResult :=
  let original_end_time := end_time
  let duration := end_time - start_time
  let needs_clipping := duration < MIN_DURATION
  let adjusted_end_time :=
    if duration < MIN_DURATION then start_time + MIN_DURATION else end_time
  let dl := downloadMedia deviceId start_time adjusted_end_time env.remote
  match dl.2.2 with
  | .error e =>
    { apiCalls := dl.1, trimCmd := none, outputFile := none, tempFile := none,
      result := .error e }
  | .ok =>
    let rawFile := FileContent.raw start_time adjusted_end_time
    if needs_clipping then
      let clip_duration := original_end_time - start_time
      let cmd : TrimCmd :=
        { seekStart := 0, clipDuration := clip_duration, streamCopy := true,
          overwrite := true }
      if env.ffmpegFound then
        if env.trimExitZero then
          let tempWritten := FileContent.trimmed rawFile clip_duration
          let outputAfterMove := some tempWritten
          let tempAfterMove : Option FileContent := none
          let tempFinal := if tempAfterMove.isSome then none else tempAfterMove
          { apiCalls := dl.1, trimCmd := some cmd, outputFile := outputAfterMove,
            tempFile := tempFinal, result := .ok }
        else
          let tempAfterFail : Option FileContent :=
            if env.trimLeavesTempOnFail then some .truncatedFile else none
          let tempFinal := if tempAfterFail.isSome then none else tempAfterFail
          { apiCalls := dl.1, trimCmd := some cmd, outputFile := some rawFile,
            tempFile := tempFinal,
            result := .error (.runtimeError
              "An error occurred during clipping: Failed to clip the video with ffmpeg.") }
      else
        { apiCalls := dl.1, trimCmd := none, outputFile := some rawFile,
          tempFile := none,
          result := .error (.runtimeError
            "Error: ffmpeg command not found. Please ensure ffmpeg is installed and in your PATH.") }
    else
      { apiCalls := dl.1, trimCmd := none, outputFile := some rawFile,
        tempFile := none, result := .ok }

/-- Behaviour of the ffmpeg concat invocation in `_merge_segments`:
whether it exits with status 0, and whether a failed run leaves a
partially-written file at the output path. -/
structure MergeEnv where
  concatExitZero : Bool
  concatLeavesPartialOutput : Bool

/-- Final observable state of one `_merge_segments` call: the file at
the target output path, whether the `filelist.txt` manifest still
exists, the list of segment files passed to the concat invocation (when
one was issued), and the outcome. -/
structure MergeOutcome where
  output : Option FileContent
  filelistExists : Bool
  concatInputs : Option (List FileContent)
  result : PyResult

/-- Model of `_merge_segments` (`_cli/_downloader.py`).  An empty list
raises `RuntimeError("No segments to merge")`; a single segment is
moved to the output path directly; otherwise `filelist.txt` is written
and `ffmpeg -f concat ... -c copy -y output` is run with `check=True`,
raising `RuntimeError` on a non-zero exit, and the `finally` block
removes the manifest whenever it exists.  Nothing removes the output
path on failure. -/
def mergeSegments (segment_files : List FileContent) (env : MergeEnv) :
    MergeOutcome :=
  match segment_files with
  | [] =>
    { output := none, filelistExists := false, concatInputs := none,
      result := .error (.runtimeError "No segments to merge") }
  | [single] =>
    { output := some single, filelistExists := false, concatInputs := none,
      result := .ok }
  | files =>
    let filelistWritten := true
    if env.concatExitZero then
      let filelistFinal := if filelistWritten then false else filelistWritten
      { output := some (.merged files), filelistExists := filelistFinal,
        concatInputs := some files, result := .ok }
    else
      let outputAfterFail :=
        if env.concatLeavesPartialOutput then some FileContent.truncatedFile
        else none
      let filelistFinal := if filelistWritten then false else filelistWritten
      { output := outputAfterFail, filelistExists := filelistFinal,
        concatInputs := some files,
        result := .error (.runtimeError "Failed to merge segments") }

/-- Per-job environment: one `ClipEnv` per segment index plus the
behaviour of the merge invocation. -/
structure JobEnv where
  segEnv : Nat → ClipEnv
  mergeEnv : MergeEnv

/-- Final observable state of one `download_media_from_device` job:
the combined API-call trace, whether the temporary workspace still
exists, the first exception raised by a segment task (if any), the file
at the caller-supplied output path (assumed absent before the job), and
the outcome. -/
structure JobOutcome where
  apiCalls : List ApiCall
  workspaceExists : Bool
  segmentFailure : Option PyError
  output : Option FileContent
  result : PyResult

/-- The part of `download_media_from_device` (`_cli/_downloader.py`)
below segmentation: run `_download_with_clipping` for each indexed
segment inside a `tempfile.TemporaryDirectory()` (destroyed on every
exit path, hence `workspaceExists := false`), then merge the segment
files into the output path.  `asyncio.gather` propagates the first
segment exception, in which case the merge never runs and the output
path is never written; segment files live inside the workspace, so only
`_merge_segments` ever writes to the output path (assumed absent before
the job). -/
def runJobOnSegments (deviceId : String) (segments : List (Int × Int))
    (env : JobEnv) : JobOutcome :=
  let segResults := segments.enum.map fun p =>
    downloadWithClipping deviceId p.2.1 p.2.2 (env.segEnv p.1)
  let calls := (segResults.map fun r => r.apiCalls).flatten
  let firstErr := segResults.findSome? fun r =>
    match r.result with
    | .error e => some e
    | .ok => none
  { apiCalls := calls
    workspaceExists := false
    segmentFailure := firstErr
    output :=
      match firstErr with
      | some _ => none
      | none =>
        (mergeSegments (segResults.filterMap fun r => r.outputFile)
          env.mergeEnv).output
    result :=
      match firstErr with
      | some e => .error e
      | none =>
        (mergeSegments (segResults.filterMap fun r => r.outputFile)
          env.mergeEnv).result }

/-- Model of `download_media_from_device` (`_cli/_downloader.py`):
split the range with `_create_time_segments(start, end, _MAX_DURATION)`
and run the per-segment downloads followed by the merge. -/
def downloadMediaFromDevice (deviceId : String) (start_time end_time : Int)
    (env : JobEnv) : JobOutcome :=
  runJobOnSegments deviceId (createTimeSegments start_time end_time MAX_DURATION)
    env

/-- The workspace path of segment `i`'s file: `temp_dir / f"{i}_{output_file_name}"`
as built in `_download_segments`; the segment index is embedded in the
file name, so paths of distinct segments are distinct. -/
structure SegFilePath where
  idx : Nat
  outputFileName : String
deriving DecidableEq

/-- The `segments_paths` list that `_download_segments` accumulates while
creating the tasks, before any task is awaited: one path per segment, in
segment-index order.  This list, and not anything derived from task
completions, is what is returned to the caller and handed to
`_merge_segments`. -/
def segmentTaskPaths (numSegments : Nat) (outputFileName : String) :
    List SegFilePath :=
  (List.range numSegments).map fun i => ⟨i, outputFileName⟩

/-- The temporary workspace after all segment tasks have completed,
as an association list in completion order: task `j` writes exactly one
file, at its own path `{j}_{output_file_name}`.  `completionOrder` is
the order in which the concurrently running `asyncio` tasks finish. -/
def workspaceAfterTasks (outputFileName : String) (contents : Nat → FileContent)
    (completionOrder : List Nat) : List (SegFilePath × FileContent) :=
  completionOrder.map fun j => (⟨j, outputFileName⟩, contents j)

/-- The segment files handed to `_merge_segments` after
`asyncio.gather` returns: `segments_paths` in index order, each path
resolved against the workspace produced by the completed tasks. -/
def mergeInputFiles (numSegments : Nat) (outputFileName : String)
    (contents : Nat → FileContent) (completionOrder : List Nat) :
    List (SegFilePath × Option FileContent) :=
  (segmentTaskPaths numSegments outputFileName).map fun p =>
    (p, (workspaceAfterTasks outputFileName contents completionOrder).lookup p)

end SafieMediafile

namespace SafieMediafile

theorem createTimeSegments_step (s e : Int) (d : Int)
    (hs : s < e) (hd : 0 < d) :
    createTimeSegments s e d =
      (s, min (s + d) e) :: createTimeSegments (min (s + d) e) e d := by
  rw [createTimeSegments]
  simp [hs, hd]

theorem createTimeSegments_nil (s e : Int) (d : Int) (hs : e ≤ s) :
    createTimeSegments s e d = [] := by
  rw [createTimeSegments]
  simp [not_lt.mpr hs]

theorem createTimeSegments_mem_bounds (s e : Int) (d : Int) :
    ∀ p ∈ createTimeSegments s e d, s ≤ p.1 ∧ p.2 ≤ e := by
  induction s, e, d using createTimeSegments.induct with
  | case1 s e d h ih =>
    rw [createTimeSegments_step s e d h.1 h.2]
    intro p hp
    rcases List.mem_cons.mp hp with hp | hp
    · subst hp
      exact ⟨le_refl s, min_le_right _ _⟩
    · have hb := ih p hp
      have hsm : s ≤ min (s + d) e := le_min (by omega) h.1.le
      exact ⟨le_trans hsm hb.1, hb.2⟩
  | case2 s e d h =>
    rw [createTimeSegments]
    simp [h]

theorem createTimeSegments_chained (s e : Int) (d : Int) :
    segmentsChained (createTimeSegments s e d) = true := by
  induction s, e, d using createTimeSegments.induct with
  | case1 s e d h ih =>
    rw [createTimeSegments_step s e d h.1 h.2]
    by_cases hm : min (s + d) e < e
    · have hstep := createTimeSegments_step _ e d hm h.2
      rw [hstep]
      rw [hstep] at ih
      simpa [segmentsChained] using ih
    · rw [createTimeSegments_nil _ e d (not_lt.mp hm)]
      simp [segmentsChained]
  | case2 s e d h =>
    rw [createTimeSegments]
    simp [h, segmentsChained]

theorem createTimeSegments_proper (s e : Int) (d : Int) :
    segmentsProper (createTimeSegments s e d) = true := by
  induction s, e, d using createTimeSegments.induct with
  | case1 s e d h ih =>
    rw [createTimeSegments_step s e d h.1 h.2]
    simp only [segmentsProper, List.all_cons, Bool.and_eq_true, decide_eq_true_eq]
    constructor
    · have h1 := h.1
      have h2 := h.2
      rcases le_or_lt (s + d) e with hc | hc
      · rw [min_eq_left hc]; omega
      · rw [min_eq_right hc.le]; omega
    · simpa [segmentsProper] using ih
  | case2 s e d h =>
    rw [createTimeSegments]
    simp [h, segmentsProper]

theorem createTimeSegments_full_but_last (s e : Int) (d : Int) :
    allFullButLast d (createTimeSegments s e d) = true := by
  induction s, e, d using createTimeSegments.induct with
  | case1 s e d h ih =>
    rw [createTimeSegments_step s e d h.1 h.2]
    by_cases hm : min (s + d) e < e
    · have hfull : min (s + d) e = s + d := by
        rcases le_or_lt (s + d) e with hc | hc
        · exact min_eq_left hc
        · exact absurd hm (by rw [min_eq_right hc.le]; exact lt_irrefl e)
      have hstep := createTimeSegments_step _ e d hm h.2
      rw [hstep]
      rw [hstep] at ih
      simp only [allFullButLast, Bool.and_eq_true, beq_iff_eq]
      exact ⟨by omega, ih⟩
    · rw [createTimeSegments_nil _ e d (not_lt.mp hm)]
      simp [allFullButLast]
  | case2 s e d h =>
    rw [createTimeSegments]
    simp [h, allFullButLast]

theorem createTimeSegments_last (s e : Int) (d : Int)
    (hs : s < e) (hd : 0 < d) :
    (createTimeSegments s e d).getLast?.map Prod.snd = some e := by
  induction s, e, d using createTimeSegments.induct with
  | case1 s e d h ih =>
    rw [createTimeSegments_step s e d h.1 h.2]
    by_cases hm : min (s + d) e < e
    · have htail := ih hm h.2
      rw [createTimeSegments_step _ e d hm h.2] at htail ⊢
      rw [List.getLast?_cons_cons]
      exact htail
    · have hme : min (s + d) e = e := le_antisymm (min_le_right _ _) (not_lt.mp hm)
      rw [createTimeSegments_nil _ e d (not_lt.mp hm)]
      simp [hme]
  | case2 s e d h =>
    exact absurd ⟨hs, hd⟩ h

theorem createTimeSegments_pairwise (s e : Int) (d : Int) :
    List.Pairwise (fun p q : Int × Int => p.2 ≤ q.1) (createTimeSegments s e d) := by
  induction s, e, d using createTimeSegments.induct with
  | case1 s e d h ih =>
    rw [createTimeSegments_step s e d h.1 h.2]
    refine List.Pairwise.cons ?_ ih
    intro q hq
    exact (createTimeSegments_mem_bounds _ e d q hq).1
  | case2 s e d h =>
    rw [createTimeSegments]
    simp [h]

theorem createTimeSegments_head (s e : Int) (d : Int) (hs : s < e) (hd : 0 < d) :
    (createTimeSegments s e d).head?.map Prod.fst = some s := by
  rw [createTimeSegments_step s e d hs hd]
  rfl

theorem createTimeSegments_short (s e : Int) (d : Int) (hs : s < e)
    (hshort : e - s < d) :
    createTimeSegments s e d = [(s, e)] := by
  have hd : 0 < d := by omega
  rw [createTimeSegments_step s e d hs hd]
  have hme : min (s + d) e = e := min_eq_right (by omega)
  rw [hme, createTimeSegments_nil e e d le_rfl]

/-- C1: for every `start < end` and `maxSegmentDuration > 0`,
`_create_time_segments` returns an ordered, non-empty sequence of
`(start, end)` sub-ranges that are contiguous (each segment's end equals
the next segment's start), non-overlapping (each segment is proper and
ends no later than any later segment starts), and cover `[start, end)`
exactly (first start is `start`, last end is `end`); every segment
except possibly the last has duration exactly `maxSegmentDuration`, and
an input range shorter than `maxSegmentDuration` yields exactly one
segment equal to the input range. -/
theorem segmenter_C1 (s e : Int) (d : Int) (hse : s < e) (hd : 0 < d) :
    createTimeSegments s e d ≠ [] ∧
    (createTimeSegments s e d).head?.map Prod.fst = some s ∧
    (createTimeSegments s e d).getLast?.map Prod.snd = some e ∧
    segmentsChained (createTimeSegments s e d) = true ∧
    List.Pairwise (fun p q : Int × Int => p.2 ≤ q.1) (createTimeSegments s e d) ∧
    segmentsProper (createTimeSegments s e d) = true ∧
    allFullButLast d (createTimeSegments s e d) = true ∧
    (e - s < d → createTimeSegments s e d = [(s, e)]) := by
  refine ⟨?_, createTimeSegments_head s e d hse hd,
    createTimeSegments_last s e d hse hd,
    createTimeSegments_chained s e d,
    createTimeSegments_pairwise s e d,
    createTimeSegments_proper s e d,
    createTimeSegments_full_but_last s e d,
    fun hshort => createTimeSegments_short s e d hse hshort⟩
  rw [createTimeSegments_step s e d hse hd]
  exact List.cons_ne_nil _ _

/-- Witness for C1 at `start = 0`, `end = 25`, `maxSegmentDuration = 10`. -/
theorem segmenter_C1_witness :
    createTimeSegments 0 25 10 ≠ [] ∧
    (createTimeSegments 0 25 10).head?.map Prod.fst = some 0 ∧
    (createTimeSegments 0 25 10).getLast?.map Prod.snd = some 25 ∧
    segmentsChained (createTimeSegments 0 25 10) = true ∧
    List.Pairwise (fun p q : Int × Int => p.2 ≤ q.1) (createTimeSegments 0 25 10) ∧
    segmentsProper (createTimeSegments 0 25 10) = true ∧
    allFullButLast 10 (createTimeSegments 0 25 10) = true ∧
    ((25 : Int) - 0 < 10 → createTimeSegments 0 25 10 = [(0, 25)]) :=
  segmenter_C1 0 25 10 (by norm_num) (by norm_num)

theorem pollCalls_allPending (deviceId requestId : String)
    (status : Nat → MediaState) (hp : ∀ k, status k = .pending) :
    ∀ n q, countQueries (pollCalls deviceId requestId status n q).1 = n ∧
      countSleeps (pollCalls deviceId requestId status n q).1 = n ∧
      (pollCalls deviceId requestId status n q).2 = .timedOut requestId := by
  intro n
  induction n with
  | zero =>
    intro q
    simp [pollCalls, countQueries, countSleeps]
  | succ m ih =>
    intro q
    have hq := hp q
    obtain ⟨ihq, ihs, iho⟩ := ih (q + 1)
    simp only [pollCalls, hq]
    refine ⟨?_, ?_, iho⟩
    · simp [countQueries, List.countP_cons, isQueryCall] at ihq ⊢
      omega
    · simp [countSleeps, List.countP_cons, isSleepCall] at ihs ⊢
      omega

/-- C2: for every `maxAttempts ≥ 1`, if every status query returns a
pending state, `wait_for_mediafile_ready` issues exactly `maxAttempts`
status queries (never `maxAttempts + 1`) and then raises the timeout
error carrying the request identifier. -/
theorem poller_C2 (deviceId requestId : String) (status : Nat → MediaState)
    (maxRetries : Nat) (_hmax : 1 ≤ maxRetries)
    (hp : ∀ k, status k = .pending) :
    countQueries (waitForMediafileReady deviceId requestId status maxRetries).1 =
      maxRetries ∧
    (waitForMediafileReady deviceId requestId status maxRetries).2 =
      .timedOut requestId := by
  obtain ⟨hq, _, ho⟩ := pollCalls_allPending deviceId requestId status hp maxRetries 0
  exact ⟨hq, ho⟩

/-- Witness for C2 with an always-pending status and `maxAttempts = 10`. -/
theorem poller_C2_witness :
    countQueries (waitForMediafileReady "dev" "req" (fun _ => .pending) 10).1 = 10 ∧
    (waitForMediafileReady "dev" "req" (fun _ => .pending) 10).2 = .timedOut "req" :=
  poller_C2 "dev" "req" (fun _ => .pending) 10 (by norm_num) (fun _ => rfl)

/-- C10: in the all-pending case the poller suspends for the interval
after every status query, including the final one: exactly `maxAttempts`
sleeps occur before the timeout error is raised, not `maxAttempts - 1`. -/
theorem poller_C10 (deviceId requestId : String) (status : Nat → MediaState)
    (maxRetries : Nat) (hp : ∀ k, status k = .pending) :
    countSleeps (waitForMediafileReady deviceId requestId status maxRetries).1 =
      maxRetries := by
  exact (pollCalls_allPending deviceId requestId status hp maxRetries 0).2.1

/-- Witness for C10 with an always-pending status and `maxAttempts = 10`. -/
theorem poller_C10_witness :
    countSleeps (waitForMediafileReady "dev" "req" (fun _ => .pending) 10).1 = 10 :=
  poller_C10 "dev" "req" (fun _ => .pending) 10 (fun _ => rfl)

theorem pollCalls_firstAvailable (deviceId requestId url : String)
    (status : Nat → MediaState) :
    ∀ i n q, i < n → (∀ j, j < i → status (q + j) = .pending) →
      status (q + i) = .available url →
      countQueries (pollCalls deviceId requestId status n q).1 = i + 1 ∧
      countSleeps (pollCalls deviceId requestId status n q).1 = i ∧
      (pollCalls deviceId requestId status n q).2 = .ok url := by
  intro i
  induction i with
  | zero =>
    intro n q hn _ hav
    obtain ⟨m, rfl⟩ := Nat.exists_eq_succ_of_ne_zero (Nat.pos_iff_ne_zero.mp hn)
    rw [Nat.add_zero] at hav
    simp [pollCalls, hav, countQueries, countSleeps, List.countP_cons, isQueryCall,
      isSleepCall]
  | succ k ih =>
    intro n q hn hpend hav
    obtain ⟨m, rfl⟩ := Nat.exists_eq_succ_of_ne_zero (show n ≠ 0 by omega)
    have hq : status q = .pending := by
      have := hpend 0 (Nat.succ_pos k)
      simpa using this
    have hrec := ih m (q + 1) (by omega)
      (fun j hj => by
        have := hpend (j + 1) (by omega)
        simpa [Nat.add_assoc, Nat.add_comm 1 j] using this)
      (by
        have : q + 1 + k = q + (k + 1) := by omega
        rw [this]
        exact hav)
    obtain ⟨hq1, hs1, ho1⟩ := hrec
    simp only [pollCalls, hq]
    refine ⟨?_, ?_, ho1⟩
    · simp [countQueries, List.countP_cons, isQueryCall] at hq1 ⊢
      omega
    · simp [countSleeps, List.countP_cons, isSleepCall] at hs1 ⊢
      omega

/-- C3: if the `k`-th status response (1-based, `k ≤ maxAttempts`) is the
first available one, `wait_for_mediafile_ready` returns that response's
download URL having issued exactly `k` status queries and exactly `k - 1`
interval sleeps: no further query and no sleep happen after the
available response. -/
theorem poller_C3 (deviceId requestId url : String) (status : Nat → MediaState)
    (maxRetries k : Nat) (hk1 : 1 ≤ k) (hkm : k ≤ maxRetries)
    (hpend : ∀ j, j + 1 < k → status j = .pending)
    (hav : status (k - 1) = .available url) :
    countQueries (waitForMediafileReady deviceId requestId status maxRetries).1 = k ∧
    countSleeps (waitForMediafileReady deviceId requestId status maxRetries).1 =
      k - 1 ∧
    (waitForMediafileReady deviceId requestId status maxRetries).2 = .ok url := by
  have h := pollCalls_firstAvailable deviceId requestId url status (k - 1) maxRetries 0
    (by omega) (fun j hj => by simpa using hpend j (by omega))
    (by simpa using hav)
  obtain ⟨hq, hs, ho⟩ := h
  have hq2 : countQueries
      (waitForMediafileReady deviceId requestId status maxRetries).1 = k - 1 + 1 := hq
  refine ⟨?_, hs, ho⟩
  omega

/-- Witness for C3: the third response is the first available one
(`k = 3`, `maxAttempts = 10`). -/
theorem poller_C3_witness :
    countQueries (waitForMediafileReady "dev" "req"
      (fun j => if j < 2 then .pending else .available "u") 10).1 = 3 ∧
    countSleeps (waitForMediafileReady "dev" "req"
      (fun j => if j < 2 then .pending else .available "u") 10).1 = 3 - 1 ∧
    (waitForMediafileReady "dev" "req"
      (fun j => if j < 2 then .pending else .available "u") 10).2 = .ok "u" :=
  poller_C3 "dev" "req" "u" (fun j => if j < 2 then .pending else .available "u")
    10 3 (by norm_num) (by norm_num)
    (fun j hj => by
      have : j < 2 := by omega
      simp [this])
    (by norm_num)

theorem createAndDownload_head (deviceId : String) (s e : Int) (env : RemoteEnv) :
    (createAndDownloadMediafile deviceId s e env).1.head? =
      some (.createReq deviceId s e) := by
  simp only [createAndDownloadMediafile]
  rfl

theorem downloadMedia_fst (deviceId : String) (s e : Int) (env : RemoteEnv) :
    (downloadMedia deviceId s e env).1 =
      (createAndDownloadMediafile deviceId s e env).1 := by
  unfold downloadMedia
  cases h : (createAndDownloadMediafile deviceId s e env).2 <;> simp [h]

theorem pollCalls_no_deletes (deviceId requestId : String)
    (status : Nat → MediaState) :
    ∀ n q, countDeletes (pollCalls deviceId requestId status n q).1 = 0 := by
  intro n
  induction n with
  | zero =>
    intro q
    simp [pollCalls, countDeletes]
  | succ m ih =>
    intro q
    cases hs : status q with
    | available url =>
      simp [pollCalls, hs, countDeletes, List.countP_cons, isDeleteCall]
    | failed err =>
      simp [pollCalls, hs, countDeletes, List.countP_cons, isDeleteCall]
    | pending =>
      simp [pollCalls, hs, countDeletes, List.countP_cons, isDeleteCall]
      simpa [countDeletes] using ih (q + 1)

theorem createTimeSegments_one (s e : Int) (hs : s < e)
    (hle : e ≤ s + MAX_DURATION) :
    createTimeSegments s e MAX_DURATION = [(s, e)] := by
  have hd : (0 : Int) < MAX_DURATION := by norm_num [MAX_DURATION]
  rw [createTimeSegments_step s e MAX_DURATION hs hd, min_eq_right hle,
    createTimeSegments_nil e e MAX_DURATION le_rfl]

/-- C9: for every segment download, if any exception is raised while
creating, polling, or streaming (after the segment file has been opened
for writing), `_download_media` unlinks the partially-written segment
file before the exception propagates, so a failed segment task never
leaves its segment file on disk. -/
theorem downloadMedia_C9 (deviceId : String) (s e : Int) (env : RemoteEnv)
    (err : PyError)
    (h : (downloadMedia deviceId s e env).2.2 = .error err) :
    (downloadMedia deviceId s e env).2.1 = false := by
  cases hr : (createAndDownloadMediafile deviceId s e env).2 with
  | ok => simp [downloadMedia, hr] at h
  | error e2 => simp [downloadMedia, hr]

/-- Witness for C9: a transport failure during streaming leaves no file. -/
theorem downloadMedia_C9_witness :
    (downloadMedia "dev" 0 60000000
      ⟨"r", fun _ => .available "u", false⟩).2.1 = false :=
  downloadMedia_C9 "dev" 0 60000000 ⟨"r", fun _ => .available "u", false⟩
    (.mediaFileError "Failed to download media file") (by decide)

/-- C7 amended: each segment's export request is deleted exactly once
when (and only when) its download completes successfully; the
`finally` block of `create_and_download_mediafile` — which the
segmented path runs once per segment — issues the delete only after
`download_success` is set, and no delete on any failure path. -/
theorem lifecycleDelete_C7 (deviceId : String) (s e : Int) (env : RemoteEnv) :
    countDeletes (createAndDownloadMediafile deviceId s e env).1 =
      if (createAndDownloadMediafile deviceId s e env).2 = .ok then 1 else 0 := by
  unfold createAndDownloadMediafile
  have hpoll := pollCalls_no_deletes deviceId env.requestId env.status
    defaultMaxRetries 0
  cases hp : (waitForMediafileReady deviceId env.requestId env.status
      defaultMaxRetries).2 with
  | ok url =>
    by_cases hd : env.downloadOk <;>
      simp_all [waitForMediafileReady, countDeletes, List.countP_cons,
        List.countP_append, isDeleteCall]
  | processingFailed err =>
    simp_all [waitForMediafileReady, countDeletes, List.countP_cons, isDeleteCall]
  | timedOut rid =>
    simp_all [waitForMediafileReady, countDeletes, List.countP_cons, isDeleteCall]

/-- C7 counterexample: the claim that the segmented retrieval path never
issues a delete for any segment's export request is false — in a
successful one-segment job driven by `download_media_from_device`, the
per-segment lifecycle deletes the segment's export request after its
download completes, so the job trace contains exactly one delete. -/
theorem segmentedDelete_C7_cex :
    countDeletes (downloadMediaFromDevice "dev" 0 60000000
      ⟨fun _ => ⟨⟨"r1", fun _ => .available "u", true⟩, true, true, false⟩,
        ⟨true, false⟩⟩).apiCalls = 1 := by
  have hseg : createTimeSegments 0 60000000 MAX_DURATION = [(0, 60000000)] :=
    createTimeSegments_one 0 60000000 (by norm_num) (by norm_num [MAX_DURATION])
  unfold downloadMediaFromDevice
  rw [hseg]
  decide

/-- C5: for every segment whose requested duration is below the
one-minute minimum, `_download_with_clipping` requests the remote
export for `[start, start + _MIN_DURATION)` instead; any ffmpeg trim it
issues is a lossless stream-copy trim (`-ss 0 -t (end - start) -c copy
-y`) to exactly the originally requested duration; on success the
trimmed result replaces the raw download at the segment output path;
and the temporary pre-trim artifact is absent on every exit path,
whether the trim succeeds or fails. -/
theorem clipping_C5 (deviceId : String) (s e : Int) (env : ClipEnv)
    (hshort : e - s < MIN_DURATION) :
    (downloadWithClipping deviceId s e env).apiCalls.head? =
      some (.createReq deviceId s (s + MIN_DURATION)) ∧
    (∀ cmd, (downloadWithClipping deviceId s e env).trimCmd = some cmd →
      cmd = ⟨0, e - s, true, true⟩) ∧
    ((downloadWithClipping deviceId s e env).result = .ok →
      (downloadWithClipping deviceId s e env).outputFile =
        some (.trimmed (.raw s (s + MIN_DURATION)) (e - s)) ∧
      (downloadWithClipping deviceId s e env).trimCmd =
        some ⟨0, e - s, true, true⟩) ∧
    (downloadWithClipping deviceId s e env).tempFile = none := by
  obtain ⟨renv, ff, tz, tl⟩ := env
  have htrace : (downloadMedia deviceId s (s + MIN_DURATION) renv).1.head? =
      some (.createReq deviceId s (s + MIN_DURATION)) := by
    rw [downloadMedia_fst]
    exact createAndDownload_head deviceId s (s + MIN_DURATION) renv
  cases hdl : (downloadMedia deviceId s (s + MIN_DURATION) renv).2.2 with
  | error e2 =>
    refine ⟨?_, ?_, ?_, ?_⟩ <;> simp [downloadWithClipping, hshort, hdl, htrace]
  | ok =>
    cases ff <;> cases tz <;> cases tl <;> refine ⟨?_, ?_, ?_, ?_⟩ <;>
      simp [downloadWithClipping, hshort, hdl, htrace]

/-- Witness for C5: a 30-second request (below the one-minute minimum)
with a successful export, download and trim. -/
theorem clipping_C5_witness :
    (downloadWithClipping "dev" 0 30000000
      ⟨⟨"r", fun _ => .available "u", true⟩, true, true, false⟩).apiCalls.head? =
      some (.createReq "dev" 0 (0 + MIN_DURATION)) ∧
    (∀ cmd, (downloadWithClipping "dev" 0 30000000
        ⟨⟨"r", fun _ => .available "u", true⟩, true, true, false⟩).trimCmd =
        some cmd →
      cmd = ⟨0, 30000000 - 0, true, true⟩) ∧
    ((downloadWithClipping "dev" 0 30000000
        ⟨⟨"r", fun _ => .available "u", true⟩, true, true, false⟩).result = .ok →
      (downloadWithClipping "dev" 0 30000000
        ⟨⟨"r", fun _ => .available "u", true⟩, true, true, false⟩).outputFile =
        some (.trimmed (.raw 0 (0 + MIN_DURATION)) (30000000 - 0)) ∧
      (downloadWithClipping "dev" 0 30000000
        ⟨⟨"r", fun _ => .available "u", true⟩, true, true, false⟩).trimCmd =
        some ⟨0, 30000000 - 0, true, true⟩) ∧
    (downloadWithClipping "dev" 0 30000000
      ⟨⟨"r", fun _ => .available "u", true⟩, true, true, false⟩).tempFile = none :=
  clipping_C5 "dev" 0 30000000
    ⟨⟨"r", fun _ => .available "u", true⟩, true, true, false⟩
    (by norm_num [MIN_DURATION])

/-- C4 amended: if any segment task (download or trim stage) fails, the
job raises that error, the target output path has no file (the merge
never runs, and only the merge writes the output path), and the
workspace is destroyed.  The workspace is destroyed on every exit path.
However — this is where the original claim fails, see the
counterexample — a failure of the merge stage itself can leave a
partially-written file at the output path, which is not removed before
the error is re-raised. -/
theorem jobCleanup_C4 (deviceId : String) (s e : Int) (env : JobEnv)
    (err : PyError)
    (h : (downloadMediaFromDevice deviceId s e env).segmentFailure = some err) :
    (downloadMediaFromDevice deviceId s e env).workspaceExists = false ∧
    (downloadMediaFromDevice deviceId s e env).output = none ∧
    (downloadMediaFromDevice deviceId s e env).result = .error err := by
  simp only [downloadMediaFromDevice, runJobOnSegments] at h ⊢
  rw [h]
  exact ⟨trivial, rfl, rfl⟩

/-- Witness for the amended C4: a one-segment job whose download fails
with a transport error. -/
theorem jobCleanup_C4_witness :
    (downloadMediaFromDevice "dev" 0 600000000
      ⟨fun _ => ⟨⟨"r", fun _ => .available "u", false⟩, true, true, false⟩,
        ⟨true, false⟩⟩).workspaceExists = false ∧
    (downloadMediaFromDevice "dev" 0 600000000
      ⟨fun _ => ⟨⟨"r", fun _ => .available "u", false⟩, true, true, false⟩,
        ⟨true, false⟩⟩).output = none ∧
    (downloadMediaFromDevice "dev" 0 600000000
      ⟨fun _ => ⟨⟨"r", fun _ => .available "u", false⟩, true, true, false⟩,
        ⟨true, false⟩⟩).result =
      .error (.mediaFileError "Failed to download media file") :=
  jobCleanup_C4 "dev" 0 600000000
    ⟨fun _ => ⟨⟨"r", fun _ => .available "u", false⟩, true, true, false⟩,
      ⟨true, false⟩⟩
    (.mediaFileError "Failed to download media file")
    (by
      unfold downloadMediaFromDevice
      rw [createTimeSegments_one 0 600000000 (by norm_num)
        (by norm_num [MAX_DURATION])]
      decide)

/-- C4 counterexample: the claim that any partially-written file at the
target output path is removed before the error is re-raised is false at
the merge stage — in a two-segment job whose downloads succeed but
whose ffmpeg concat invocation exits non-zero after partially writing
the output, `_merge_segments` raises without removing the output file,
so the caller observes both the error and a partial artifact at the
output path. -/
theorem jobCleanup_C4_cex :
    (downloadMediaFromDevice "dev" 0 1200000000
      ⟨fun _ => ⟨⟨"r", fun _ => .available "u", true⟩, true, true, false⟩,
        ⟨false, true⟩⟩).result =
      .error (.runtimeError "Failed to merge segments") ∧
    (downloadMediaFromDevice "dev" 0 1200000000
      ⟨fun _ => ⟨⟨"r", fun _ => .available "u", true⟩, true, true, false⟩,
        ⟨false, true⟩⟩).output = some .truncatedFile := by
  have h1 : min ((0 : Int) + MAX_DURATION) 1200000000 = 600000000 := by
    norm_num [MAX_DURATION, min_def]
  have h2 : min ((600000000 : Int) + MAX_DURATION) 1200000000 = 1200000000 := by
    norm_num [MAX_DURATION, min_def]
  have hseg : createTimeSegments 0 1200000000 MAX_DURATION =
      [(0, 600000000), (600000000, 1200000000)] := by
    rw [createTimeSegments_step 0 1200000000 MAX_DURATION (by norm_num)
        (by norm_num [MAX_DURATION]), h1,
      createTimeSegments_step 600000000 1200000000 MAX_DURATION (by norm_num)
        (by norm_num [MAX_DURATION]), h2,
      createTimeSegments_nil 1200000000 1200000000 MAX_DURATION le_rfl]
  unfold downloadMediaFromDevice
  rw [hseg]
  exact ⟨rfl, rfl⟩

/-- C8: for every input with `start_time ≥ end_time`,
`_create_time_segments` returns the empty list (for any segment
duration), and the download job raises `RuntimeError("No segments to
merge")` at the merge step without issuing any remote export-creation
request; no validation of the `start < end` precondition happens at the
public interface. -/
theorem emptyRange_C8 (deviceId : String) (s e : Int) (env : JobEnv)
    (h : e ≤ s) :
    (∀ d : Int, createTimeSegments s e d = []) ∧
    (downloadMediaFromDevice deviceId s e env).result =
      .error (.runtimeError "No segments to merge") ∧
    countCreates (downloadMediaFromDevice deviceId s e env).apiCalls = 0 := by
  have hnil : createTimeSegments s e MAX_DURATION = [] :=
    createTimeSegments_nil s e MAX_DURATION h
  refine ⟨fun d => createTimeSegments_nil s e d h, ?_, ?_⟩
  · unfold downloadMediaFromDevice
    rw [hnil]
    rfl
  · unfold downloadMediaFromDevice
    rw [hnil]
    rfl

/-- Witness for C8 at `start_time = 5 > 3 = end_time`. -/
theorem emptyRange_C8_witness :
    (∀ d : Int, createTimeSegments 5 3 d = []) ∧
    (downloadMediaFromDevice "dev" 5 3
      ⟨fun _ => ⟨⟨"r", fun _ => .pending, true⟩, true, true, false⟩,
        ⟨true, false⟩⟩).result =
      .error (.runtimeError "No segments to merge") ∧
    countCreates (downloadMediaFromDevice "dev" 5 3
      ⟨fun _ => ⟨⟨"r", fun _ => .pending, true⟩, true, true, false⟩,
        ⟨true, false⟩⟩).apiCalls = 0 :=
  emptyRange_C8 "dev" 5 3
    ⟨fun _ => ⟨⟨"r", fun _ => .pending, true⟩, true, true, false⟩, ⟨true, false⟩⟩
    (by norm_num)

theorem lookup_workspaceAfterTasks (name : String) (contents : Nat → FileContent) :
    ∀ (l : List Nat) (i : Nat), i ∈ l →
      (workspaceAfterTasks name contents l).lookup ⟨i, name⟩ =
        some (contents i) := by
  intro l
  induction l with
  | nil =>
    intro i hi
    cases hi
  | cons j t ih =>
    intro i hi
    by_cases hij : i = j
    · subst hij
      simp [workspaceAfterTasks, List.lookup]
    · have hmem : i ∈ t := by
        rcases List.mem_cons.mp hi with hcon | hmem
        · exact absurd hcon hij
        · exact hmem
      have hne : ((⟨i, name⟩ : SegFilePath) == ⟨j, name⟩) = false := by
        rw [beq_eq_false_iff_ne]
        intro hcon
        exact hij (congrArg SegFilePath.idx hcon)
      simp only [workspaceAfterTasks, List.map_cons, List.lookup, hne]
      exact ih i hmem

/-- C6: the list of segment files passed to `_merge_segments` is the
`segments_paths` list in segment-index order (the chronological order of
the original range), each resolved to the file its task wrote, for every
possible completion order of the concurrent segment tasks; completion
order never affects the merge input order. -/
theorem mergeOrder_C6 (n : Nat) (name : String) (contents : Nat → FileContent)
    (completionOrder : List Nat)
    (hperm : completionOrder.Perm (List.range n)) :
    mergeInputFiles n name contents completionOrder =
      (List.range n).map fun i => (⟨i, name⟩, some (contents i)) := by
  unfold mergeInputFiles segmentTaskPaths
  rw [List.map_map]
  refine List.map_congr_left ?_
  intro i hi
  have hin : i ∈ completionOrder := hperm.mem_iff.mpr hi
  simp only [Function.comp_apply]
  rw [lookup_workspaceAfterTasks name contents completionOrder i hin]

/-- Witness for C6: three segments completing in the order 2, 0, 1. -/
theorem mergeOrder_C6_witness :
    mergeInputFiles 3 "out.mp4" (fun i => FileContent.raw i (i + 1)) [2, 0, 1] =
      (List.range 3).map fun i =>
        ((⟨i, "out.mp4"⟩ : SegFilePath), some (FileContent.raw i (i + 1))) :=
  mergeOrder_C6 3 "out.mp4" (fun i => FileContent.raw i (i + 1)) [2, 0, 1]
    (by decide)

end SafieMediafile
